import Mathlib

/-!
Verification of the prettylogs logging library (`src/logFunction.ts`).

This file shallowly embeds the file-logging engine of the library:
the level gate (`shouldLog` / `shouldLogForMode`), configuration merging
and validation (`mergeConfig`), child-logger creation, the async write
buffer (`LogBuffer`), size-based rotation with archive retention
(`checkAndRotateFile` / `rotateLogFile` / `cleanupOldLogFiles`),
bounded-timeout close, and circular-safe metadata serialization
(`safeStringify`).

JavaScript machine details are modelled as follows: JS numbers used for
sizes and counts are `Int` (users may pass non-positive values, which the
code validates away); file contents are `String`s and a byte count is the
string length (entries in the claims are ASCII); the Node.js event loop is
single-threaded, so each method body runs atomically and asynchrony is
modelled as explicit operations (timer flush, stream completion) in a
trace.
-/

namespace PrettyLogs

/-- The seven log levels of the library. -/
inductive LogLevel
  | TRACE | DEBUG | INFO | WARN | ERROR | FATAL | SUCCESS
deriving DecidableEq, Repr

/-- Numeric rank of each level (`LOG_LEVELS` in the source); SUCCESS shares
INFO's rank 2. -/
def LOG_LEVELS : LogLevel → Nat
  | .TRACE => 0
  | .DEBUG => 1
  | .INFO => 2
  | .WARN => 3
  | .ERROR => 4
  | .FATAL => 5
  | .SUCCESS => 2

inductive LogMode
  | silent | normal | verbose | debug
deriving DecidableEq, Repr

inductive DateFormat
  | iso | locale | unix | short
deriving DecidableEq, Repr

inductive LogFormat
  | text | json | structured
deriving DecidableEq, Repr

/-- The logger's effective configuration (`Required<LoggerConfig>` in the
source).  JS numeric options are `Int`; `logFile = ""` plays the role of
the absent/falsy log-file path. -/
structure Config where
  levels : List LogLevel
  minLevel : LogLevel
  timestamps : Bool
  mode : LogMode
  logFile : String
  maxFileSize : Int
  maxFiles : Int
  colorize : Bool
  prettyPrint : Bool
  logFormat : LogFormat
  dateFormat : DateFormat
  environment : String
  compression : Bool
  async : Bool
  bufferSize : Int
  flushInterval : Int
  disableFileLogging : Bool
deriving DecidableEq, Repr

/-- A user configuration (the `LoggerConfig` interface in the source):
every field optional.  `minLevel` arrives as a raw string, since
TypeScript types are not enforced at runtime and `mergeConfig` validates
it against the list of recognized level names. -/
structure LoggerConfig where
  levels : Option (List LogLevel) := none
  minLevel : Option String := none
  timestamps : Option Bool := none
  mode : Option LogMode := none
  logFile : Option String := none
  maxFileSize : Option Int := none
  maxFiles : Option Int := none
  colorize : Option Bool := none
  prettyPrint : Option Bool := none
  logFormat : Option LogFormat := none
  dateFormat : Option DateFormat := none
  environment : Option String := none
  compression : Option Bool := none
  async : Option Bool := none
  bufferSize : Option Int := none
  flushInterval : Option Int := none
  disableFileLogging : Option Bool := none
deriving DecidableEq, Repr

/-- `getDefaultConfig` from the source (environment modelled as its
development default). -/
def getDefaultConfig : Config where
  levels := [.TRACE, .DEBUG, .INFO, .WARN, .ERROR, .FATAL, .SUCCESS]
  minLevel := .DEBUG
  timestamps := false
  mode := .normal
  logFile := ""
  maxFileSize := 10 * 1024 * 1024
  maxFiles := 5
  colorize := true
  prettyPrint := true
  logFormat := .text
  dateFormat := .iso
  environment := "development"
  compression := false
  async := false
  bufferSize := 100
  flushInterval := 1000
  disableFileLogging := false

/-- The `validLevels` string list used by `mergeConfig` to validate
`minLevel`. -/
def validLevels : List String :=
  ["TRACE", "DEBUG", "INFO", "WARN", "ERROR", "FATAL", "SUCCESS"]

/-- Parse a level name; total on the seven valid names. -/
def levelOfString : String → Option LogLevel
  | "TRACE" => some .TRACE
  | "DEBUG" => some .DEBUG
  | "INFO" => some .INFO
  | "WARN" => some .WARN
  | "ERROR" => some .ERROR
  | "FATAL" => some .FATAL
  | "SUCCESS" => some .SUCCESS
  | _ => none

/-- Name of a level, inverse of `levelOfString`. -/
def levelToString : LogLevel → String
  | .TRACE => "TRACE"
  | .DEBUG => "DEBUG"
  | .INFO => "INFO"
  | .WARN => "WARN"
  | .ERROR => "ERROR"
  | .FATAL => "FATAL"
  | .SUCCESS => "SUCCESS"

/-- `mergeConfig(defaultConfig, userConfig)` from the source.  The object
spread `{...defaultConfig, ...userConfig}` takes each field from the user
config when present, else from the first argument; the validation phase
then replaces a non-positive `maxFileSize` / `bufferSize` / `maxFiles`
and an unrecognized `minLevel` with the first argument's value.  (In
`setConfig` the first argument is the logger's current config, so the
fallback is the prior value.) -/
def mergeConfig (dflt : Config) (user : LoggerConfig) : Config :=
  let merged : Config :=
    { levels := user.levels.getD dflt.levels
      minLevel :=
        match user.minLevel with
        | none => dflt.minLevel
        | some s =>
          if validLevels.contains s then (levelOfString s).getD dflt.minLevel
          else dflt.minLevel
      timestamps := user.timestamps.getD dflt.timestamps
      mode := user.mode.getD dflt.mode
      logFile := user.logFile.getD dflt.logFile
      maxFileSize := user.maxFileSize.getD dflt.maxFileSize
      maxFiles := user.maxFiles.getD dflt.maxFiles
      colorize := user.colorize.getD dflt.colorize
      prettyPrint := user.prettyPrint.getD dflt.prettyPrint
      logFormat := user.logFormat.getD dflt.logFormat
      dateFormat := user.dateFormat.getD dflt.dateFormat
      environment := user.environment.getD dflt.environment
      compression := user.compression.getD dflt.compression
      async := user.async.getD dflt.async
      bufferSize := user.bufferSize.getD dflt.bufferSize
      flushInterval := user.flushInterval.getD dflt.flushInterval
      disableFileLogging := user.disableFileLogging.getD dflt.disableFileLogging }
  { merged with
    maxFileSize := if merged.maxFileSize ≤ 0 then dflt.maxFileSize else merged.maxFileSize
    bufferSize := if merged.bufferSize ≤ 0 then dflt.bufferSize else merged.bufferSize
    maxFiles := if merged.maxFiles ≤ 0 then dflt.maxFiles else merged.maxFiles }

/-- `shouldLog` from the source: silent mode and levels not in the
allow-list are rejected; verbose/debug modes accept TRACE outright;
otherwise the level's rank is compared against `minLevel`'s rank. -/
def shouldLog (c : Config) (l : LogLevel) : Bool :=
  if c.mode = .silent then false
  else if ¬ c.levels.contains l then false
  else if (c.mode = .verbose ∨ c.mode = .debug) ∧ l = .TRACE then true
  else LOG_LEVELS c.minLevel ≤ LOG_LEVELS l

/-- `shouldLogForMode` from the source. -/
def shouldLogForMode (c : Config) (l : LogLevel) : Bool :=
  match c.mode with
  | .silent => false
  | .normal => l ≠ .TRACE
  | .verbose => true
  | .debug => true

/-- The emission gate exactly as `log` and `isLevelEnabled` use it:
`shouldLog(level) && shouldLogForMode(level)`. -/
def isLevelEnabled (c : Config) (l : LogLevel) : Bool :=
  shouldLog c l && shouldLogForMode c l

/-- The emission gate as the specification words it (for the refinement
in claim C5): false when silent; false when the level is not in the
allowed set; TRACE excluded under `normal` and included under
`verbose`/`debug` regardless of `minLevel`; otherwise emitted iff the
level's rank is at least `minLevel`'s rank. -/
def specGate (c : Config) (l : LogLevel) : Bool :=
  if c.mode = .silent then false
  else if ¬ c.levels.contains l then false
  else if l = .TRACE then decide (c.mode = .verbose ∨ c.mode = .debug)
  else LOG_LEVELS c.minLevel ≤ LOG_LEVELS l

/-- Claim C5: the emission gate returns false when mode is silent, false
when the level is not in the allowed levels set; TRACE is excluded when
mode is normal and included when mode is verbose or debug regardless of
`minLevel`; otherwise a level is emitted iff its numeric rank is at least
`minLevel`'s rank; and SUCCESS has INFO's rank, so any `minLevel` ranked
above INFO also silences SUCCESS. -/
theorem C5_level_gate :
    (∀ c l, isLevelEnabled c l = specGate c l) ∧
    (LOG_LEVELS .SUCCESS = LOG_LEVELS .INFO) ∧
    (∀ c, LOG_LEVELS .INFO < LOG_LEVELS c.minLevel →
      isLevelEnabled c .SUCCESS = false) := by
  refine ⟨?_, rfl, ?_⟩
  · intro c l
    unfold isLevelEnabled shouldLog shouldLogForMode specGate
    cases hm : c.mode <;>
      cases hc : c.levels.contains l <;>
        cases l <;> simp [hm, hc, LOG_LEVELS]
  · intro c h
    unfold isLevelEnabled shouldLog shouldLogForMode
    simp only [LOG_LEVELS] at h
    cases hm : c.mode <;>
      cases hc : c.levels.contains .SUCCESS <;>
        simp [hm, hc, LOG_LEVELS] <;> omega

/-- Witness for C5 at a concrete config: `minLevel := ERROR` ranks above
INFO, and SUCCESS is then silenced. -/
theorem C5_level_gate_witness :
    LOG_LEVELS .INFO < LOG_LEVELS ({ getDefaultConfig with minLevel := .ERROR } : Config).minLevel ∧
    isLevelEnabled { getDefaultConfig with minLevel := .ERROR } .SUCCESS = false :=
  ⟨by decide, C5_level_gate.2.2 { getDefaultConfig with minLevel := .ERROR } (by decide)⟩

/-- The configuration invariant of claim C10: positive sizes and counts.
(`minLevel` being one of the seven recognized levels holds by the type of
the `minLevel` field, which `mergeConfig` only ever fills with a parsed
valid level name.) -/
def ConfigValid (c : Config) : Prop :=
  0 < c.maxFileSize ∧ 0 < c.bufferSize ∧ 0 < c.maxFiles

instance (c : Config) : Decidable (ConfigValid c) := by
  unfold ConfigValid; infer_instance

/-- `mergeConfig` preserves the configuration invariant: each validated
numeric field is either the (positive) prior value or a positive user
value. -/
theorem mergeConfig_valid (dflt : Config) (user : LoggerConfig)
    (h : ConfigValid dflt) : ConfigValid (mergeConfig dflt user) := by
  obtain ⟨h1, h2, h3⟩ := h
  unfold mergeConfig ConfigValid
  refine ⟨?_, ?_, ?_⟩ <;> dsimp only <;> split <;> omega

/-- The logger constructor's config (`mergeConfig(getDefaultConfig(), config)`)
followed by any sequence of `setConfig` merges. -/
def configAfter (user : LoggerConfig) (updates : List LoggerConfig) : Config :=
  updates.foldl mergeConfig (mergeConfig getDefaultConfig user)

/-- Any sequence of `setConfig` merges preserves the invariant. -/
theorem configValid_foldl (ps : List LoggerConfig) (c : Config)
    (h : ConfigValid c) : ConfigValid (ps.foldl mergeConfig c) := by
  induction ps generalizing c with
  | nil => exact h
  | cons p ps ih => exact ih _ (mergeConfig_valid c p h)

/-- Claim C10: after construction with any user config and any sequence of
`setConfig` calls, the effective config satisfies `maxFileSize > 0`,
`bufferSize > 0`, `maxFiles > 0` (and `minLevel` is one of the seven
levels, by the type of the field); a non-positive numeric value or an
unrecognized `minLevel` string in the partial input leaves the prior
field value in place. -/
theorem C10_config_invariant :
    (∀ user updates, ConfigValid (configAfter user updates)) ∧
    (∀ (c : Config) (p : LoggerConfig) (v : Int), p.maxFileSize = some v → v ≤ 0 →
      (mergeConfig c p).maxFileSize = c.maxFileSize) ∧
    (∀ (c : Config) (p : LoggerConfig) (v : Int), p.bufferSize = some v → v ≤ 0 →
      (mergeConfig c p).bufferSize = c.bufferSize) ∧
    (∀ (c : Config) (p : LoggerConfig) (v : Int), p.maxFiles = some v → v ≤ 0 →
      (mergeConfig c p).maxFiles = c.maxFiles) ∧
    (∀ (c : Config) (p : LoggerConfig) (s : String), p.minLevel = some s →
      validLevels.contains s = false →
      (mergeConfig c p).minLevel = c.minLevel) := by
  refine ⟨?_, ?_, ?_, ?_, ?_⟩
  · intro user updates
    exact configValid_foldl updates _ (mergeConfig_valid _ _ (by decide))
  · intro c p v hv hle
    unfold mergeConfig
    simp [hv, hle]
  · intro c p v hv hle
    unfold mergeConfig
    simp [hv, hle]
  · intro c p v hv hle
    unfold mergeConfig
    simp [hv, hle]
  · intro c p s hs hbad
    unfold mergeConfig
    simp [hs, hbad]
    intro hmem
    simp [hmem] at hbad

/-- Witness for C10 at concrete inputs: an empty user config plus one
`setConfig` with `maxFileSize = -5` keeps the invariant, each non-positive
numeric input and the unrecognized `minLevel` string `"BOGUS"` are
rejected in favour of the prior values. -/
theorem C10_config_invariant_witness :
    ConfigValid (configAfter {} [{ maxFileSize := some (-5) }]) ∧
    (mergeConfig getDefaultConfig { maxFileSize := some (-5) }).maxFileSize
      = getDefaultConfig.maxFileSize ∧
    (mergeConfig getDefaultConfig { bufferSize := some 0 }).bufferSize
      = getDefaultConfig.bufferSize ∧
    (mergeConfig getDefaultConfig { maxFiles := some (-1) }).maxFiles
      = getDefaultConfig.maxFiles ∧
    (mergeConfig getDefaultConfig { minLevel := some "BOGUS" }).minLevel
      = getDefaultConfig.minLevel :=
  ⟨C10_config_invariant.1 {} [{ maxFileSize := some (-5) }],
   C10_config_invariant.2.1 getDefaultConfig _ (-5) rfl (by decide),
   C10_config_invariant.2.2.1 getDefaultConfig _ 0 rfl (by decide),
   C10_config_invariant.2.2.2.1 getDefaultConfig _ (-1) rfl (by decide),
   C10_config_invariant.2.2.2.2 getDefaultConfig _ "BOGUS" rfl (by decide)⟩

/-- Reconstruct the all-optional interface value carrying every field of
an effective config; this is how `child` passes `this.config` (a fully
populated `Required<LoggerConfig>`) to the `LoggerImpl` constructor. -/
def Config.toLoggerConfig (c : Config) : LoggerConfig where
  levels := some c.levels
  minLevel := some (levelToString c.minLevel)
  timestamps := some c.timestamps
  mode := some c.mode
  logFile := some c.logFile
  maxFileSize := some c.maxFileSize
  maxFiles := some c.maxFiles
  colorize := some c.colorize
  prettyPrint := some c.prettyPrint
  logFormat := some c.logFormat
  dateFormat := some c.dateFormat
  environment := some c.environment
  compression := some c.compression
  async := some c.async
  bufferSize := some c.bufferSize
  flushInterval := some c.flushInterval
  disableFileLogging := some c.disableFileLogging

theorem validLevels_contains_levelToString (m : LogLevel) :
    validLevels.contains (levelToString m) = true := by
  cases m <;> decide

theorem levelToString_mem_validLevels (m : LogLevel) :
    levelToString m ∈ validLevels := by
  cases m <;> decide

theorem levelOfString_levelToString (m : LogLevel) :
    levelOfString (levelToString m) = some m := by
  cases m <;> rfl

/-- Round-trip: constructing a logger from a valid effective config
reproduces it exactly (the object spread copies every field and the
validation phase leaves valid values untouched). -/
theorem mergeConfig_toLoggerConfig (c : Config) (h : ConfigValid c) :
    mergeConfig getDefaultConfig c.toLoggerConfig = c := by
  obtain ⟨h1, h2, h3⟩ := h
  unfold mergeConfig Config.toLoggerConfig
  have e1 : ¬ (c.maxFileSize ≤ 0) := by omega
  have e2 : ¬ (c.bufferSize ≤ 0) := by omega
  have e3 : ¬ (c.maxFiles ≤ 0) := by omega
  simp [validLevels_contains_levelToString, levelToString_mem_validLevels,
    levelOfString_levelToString, e1, e2, e3]

/-- The per-namespace logger façade: the fields of `LoggerImpl` that
`child` / `setConfig` observe.  (`nspace` is the source's `namespace`
field, renamed because `namespace` is a Lean keyword.) -/
structure LoggerState where
  config : Config
  nspace : Option String
deriving DecidableEq, Repr

/-- `childNamespace` computation from `child`: prefix the parent's
namespace plus a colon when the parent has one. -/
def childNamespace : Option String → String → String
  | some p, ns => p ++ ":" ++ ns
  | none, ns => ns

/-- The `LoggerImpl` constructor: merge the user config over fresh
defaults. -/
def mkLogger (config : LoggerConfig) (nspace : Option String) : LoggerState :=
  ⟨mergeConfig getDefaultConfig config, nspace⟩

/-- `child(namespace)` from the source: a new logger built from the
parent's current config (passed by value through the constructor's
object spread) and the colon-joined namespace. -/
def child (l : LoggerState) (ns : String) : LoggerState :=
  mkLogger l.config.toLoggerConfig (some (childNamespace l.nspace ns))

/-- `setConfig(config)` from the source: merge the partial input over the
logger's current config (file-stream reinitialization has no effect on
the stored config). -/
def setConfig (l : LoggerState) (p : LoggerConfig) : LoggerState :=
  { l with config := mergeConfig l.config p }

/-- Claim C8: `child("x").child("y")` yields namespace `"x:y"` (prefixed
by the parent's namespace and a colon when the parent has one), and a
child receives a value-copy of the parent's config at creation time:
`(child l ns).config = l.config`, a value computed from the parent's
config at creation, while `setConfig` only replaces the parent's own
config — so a later `setConfig` on the parent leaves the already-created
child's effective config unchanged.  (In the source the copy is the
object spread inside `mergeConfig`; the retained `levels` array is never
mutated in place, so the shared reference is unobservable.) -/
theorem C8_child_namespace_snapshot :
    (∀ l : LoggerState, l.nspace = none →
      (child (child l "x") "y").nspace = some "x:y") ∧
    (∀ (l : LoggerState) (p ns1 ns2 : String), l.nspace = some p →
      (child (child l ns1) ns2).nspace = some (p ++ ":" ++ ns1 ++ ":" ++ ns2)) ∧
    (∀ (l : LoggerState) (ns : String), ConfigValid l.config →
      (child l ns).config = l.config) ∧
    (∀ (l : LoggerState) (p : LoggerConfig),
      (setConfig l p).config = mergeConfig l.config p ∧
      (setConfig l p).nspace = l.nspace) := by
  refine ⟨?_, ?_, ?_, ?_⟩
  · intro l h
    simp [child, mkLogger, childNamespace, h]
  · intro l p ns1 ns2 h
    simp [child, mkLogger, childNamespace, h, String.append_assoc]
  · intro l ns h
    simpa [child, mkLogger] using mergeConfig_toLoggerConfig l.config h
  · intro l p
    exact ⟨rfl, rfl⟩

/-- Witness for C8 at a concrete parent logger (default config, no
namespace). -/
theorem C8_child_namespace_snapshot_witness :
    (child (child ⟨getDefaultConfig, none⟩ "x") "y").nspace = some "x:y" ∧
    (child ⟨getDefaultConfig, none⟩ "x").config = getDefaultConfig :=
  ⟨C8_child_namespace_snapshot.1 ⟨getDefaultConfig, none⟩ rfl,
   C8_child_namespace_snapshot.2.2.1 ⟨getDefaultConfig, none⟩ "x" (by decide)⟩

/-! ## The async write buffer (`LogBuffer`)

The buffer holds formatted lines in a single array (`buffer`), pushed by
`add` and drained by `flush`, which writes `buffer.join("")` — the queued
lines concatenated in insertion order — as one chunk to the write stream
and clears the queue.  The model records the lines delivered to the
stream in order (`written`); the byte stream the file receives is their
concatenation (`String.join`), identical to the joined chunks the code
writes because joining is associative.  `timerArmed` mirrors the flush
timer (`this.timer`); the timer's only effect on the file content is the
`flush()` it eventually performs, which appears as an explicit
`timerFlush` operation in a trace.  `streamDestroyed` mirrors
`this.writeStream.destroyed`: `flush` silently discards the queue without
writing when the stream is destroyed. -/

structure LogBuffer where
  buffer : List String
  maxSize : Int
  timerArmed : Bool
  streamDestroyed : Bool
  written : List String
deriving DecidableEq, Repr

/-- `LogBuffer.flush` from the source: early-return on an empty queue;
write the queued lines (one joined chunk) when the stream is alive; clear
the queue and cancel the timer. -/
def LogBuffer.flush (s : LogBuffer) : LogBuffer :=
  if s.buffer.isEmpty then s
  else
    let s1 :=
      if ¬ s.streamDestroyed then { s with written := s.written ++ s.buffer }
      else s
    { s1 with buffer := [], timerArmed := false }

/-- `LogBuffer.add` from the source: push the entry; flush immediately
when the queue length reaches `maxSize`, else arm the flush timer if it
is not already armed. -/
def LogBuffer.add (s : LogBuffer) (entry : String) : LogBuffer :=
  if s.maxSize ≤ (((s.buffer ++ [entry]).length : Nat) : Int) then
    LogBuffer.flush { s with buffer := s.buffer ++ [entry] }
  else if ¬ s.timerArmed then
    { s with buffer := s.buffer ++ [entry], timerArmed := true }
  else
    { s with buffer := s.buffer ++ [entry] }

/-- One scheduled event on a buffer: an `add` call, or a flush (from the
timer callback or an explicit `flush()` call — the same method). -/
inductive BufOp
  | add (entry : String)
  | timerFlush
deriving DecidableEq, Repr

def LogBuffer.step (s : LogBuffer) : BufOp → LogBuffer
  | .add e => s.add e
  | .timerFlush => s.flush

def LogBuffer.run (s : LogBuffer) (ops : List BufOp) : LogBuffer :=
  ops.foldl LogBuffer.step s

/-- The lines passed to `add` in a trace, in call order. -/
def addedLines : List BufOp → List String
  | [] => []
  | .add e :: rest => e :: addedLines rest
  | .timerFlush :: rest => addedLines rest

/-- A buffer as `setupFileLogging` constructs it: empty queue, no timer,
live stream. -/
def initLogBuffer (maxSize : Int) : LogBuffer :=
  ⟨[], maxSize, false, false, []⟩

theorem LogBuffer.flush_content (s : LogBuffer) (h : s.streamDestroyed = false) :
    s.flush.written ++ s.flush.buffer = s.written ++ s.buffer ∧
    s.flush.streamDestroyed = false := by
  unfold LogBuffer.flush
  by_cases he : s.buffer.isEmpty <;> simp [he, h]

theorem LogBuffer.step_content (s : LogBuffer) (op : BufOp)
    (h : s.streamDestroyed = false) :
    (s.step op).written ++ (s.step op).buffer
      = s.written ++ s.buffer ++ addedLines [op] ∧
    (s.step op).streamDestroyed = false := by
  cases op with
  | timerFlush =>
    simpa [LogBuffer.step, addedLines] using s.flush_content h
  | add e =>
    unfold LogBuffer.step LogBuffer.add
    dsimp only
    by_cases hth : s.maxSize ≤ (((s.buffer ++ [e]).length : Nat) : Int)
    · rw [if_pos hth]
      have := LogBuffer.flush_content { s with buffer := s.buffer ++ [e] }
        (by simpa using h)
      simpa [addedLines] using this
    · rw [if_neg hth]
      by_cases ht : s.timerArmed
      · rw [if_neg (by simpa using ht)]
        simp [addedLines, h]
      · rw [if_pos (by simpa using ht)]
        simp [addedLines, h]

theorem LogBuffer.run_content (s : LogBuffer) (ops : List BufOp)
    (h : s.streamDestroyed = false) :
    (s.run ops).written ++ (s.run ops).buffer
      = s.written ++ s.buffer ++ addedLines ops ∧
    (s.run ops).streamDestroyed = false := by
  induction ops generalizing s with
  | nil => simp [LogBuffer.run, addedLines, h]
  | cons op rest ih =>
    obtain ⟨hc, hd⟩ := s.step_content op h
    obtain ⟨hc2, hd2⟩ := ih (s.step op) hd
    refine ⟨?_, hd2⟩
    rw [show s.run (op :: rest) = (s.step op).run rest from rfl, hc2, hc]
    cases op <;> simp [addedLines]

theorem addedLines_append_flush (ops : List BufOp) :
    addedLines (ops ++ [.timerFlush]) = addedLines ops := by
  induction ops with
  | nil => rfl
  | cons op rest ih => cases op <;> simp [addedLines, ih]

theorem LogBuffer.run_append_single (s : LogBuffer) (ops : List BufOp) (op : BufOp) :
    s.run (ops ++ [op]) = (s.run ops).step op := by
  simp [LogBuffer.run]

theorem LogBuffer.flush_buffer_empty (s : LogBuffer) : s.flush.buffer = [] := by
  unfold LogBuffer.flush
  by_cases he : s.buffer.isEmpty <;> simp [he]
  simpa using he

/-- Claim C1: for every trace of `add` calls and flushes on one buffer
with a live stream, the lines delivered to the stream plus the lines
still queued are exactly the added lines in call order; in particular
after a final `flush()` the stream has received precisely the added
lines in call order, and the file byte stream is their concatenation. -/
theorem C1_buffer_fifo_order (maxSize : Int) (ops : List BufOp) :
    ((initLogBuffer maxSize).run ops).written
        ++ ((initLogBuffer maxSize).run ops).buffer
      = addedLines ops ∧
    ((initLogBuffer maxSize).run (ops ++ [.timerFlush])).written
      = addedLines ops ∧
    String.join ((initLogBuffer maxSize).run (ops ++ [.timerFlush])).written
      = String.join (addedLines ops) := by
  obtain ⟨h1, _⟩ := (initLogBuffer maxSize).run_content ops rfl
  obtain ⟨h2, _⟩ := (initLogBuffer maxSize).run_content (ops ++ [.timerFlush]) rfl
  have hfinal : ((initLogBuffer maxSize).run (ops ++ [.timerFlush])).buffer = [] := by
    rw [LogBuffer.run_append_single]
    exact LogBuffer.flush_buffer_empty _
  have part1 : ((initLogBuffer maxSize).run ops).written
      ++ ((initLogBuffer maxSize).run ops).buffer = addedLines ops := by
    simpa [initLogBuffer] using h1
  have part2 : ((initLogBuffer maxSize).run (ops ++ [.timerFlush])).written
      = addedLines ops := by
    rw [hfinal, addedLines_append_flush] at h2
    simpa [initLogBuffer] using h2
  exact ⟨part1, part2, by rw [part2]⟩

/-! ## The logger's file pipeline (`writeToFile` / rotation / close)

State of one `LoggerImpl` and its file system effects.  `live` is the
content of the live log file (`none` = the file does not exist; a byte
count is the string length, entries being ASCII).  `archives` holds the
archive files' contents in rotation order, oldest first; since the
renamed file keeps the modification time of its last write, later
archives are strictly more recently modified, so
`cleanupOldLogFiles`'s retention of the `maxFiles` most recently
modified archives keeps exactly the last `maxFiles` entries of this
list (the directory-level cleanup itself is modelled in full detail
further below).  `buf` is the `logBuffer` field (`none` = `null`),
`streamOk` tells whether `fileWriteStream` exists and is not destroyed
or ended. -/

structure LoggerFS where
  cfg : Config
  live : Option String
  archives : List String
  buf : Option (List String)
  streamOk : Bool
deriving DecidableEq, Repr

/-- Retention applied by rotation in this model: keep the last
`maxFiles` archives (= the `maxFiles` most recently modified ones). -/
def keepMostRecent (maxFiles : Int) (archs : List String) : List String :=
  if maxFiles < (archs.length : Int) then
    archs.drop (archs.length - maxFiles.toNat)
  else archs

/-- `rotateLogFile` from the source: return unless the live file exists;
end the current stream (without flushing `logBuffer`); rename the live
file to the timestamped archive name; `cleanupOldLogFiles`; then
`setupFileLogging`, which opens a fresh stream (recreating an empty live
file) and, when `async`, installs a **new empty** `LogBuffer` — the
pending queue of the old buffer is not flushed anywhere. -/
def rotateLogFile (s : LoggerFS) : LoggerFS :=
  if s.cfg.logFile = "" then s
  else
    match s.live with
    | none => s
    | some content =>
      if s.cfg.logFile ≠ "" ∧ ¬ s.cfg.disableFileLogging then
        { s with
          archives := keepMostRecent s.cfg.maxFiles (s.archives ++ [content])
          live := some ""
          streamOk := true
          buf := if s.cfg.async then some [] else s.buf }
      else
        { s with
          archives := keepMostRecent s.cfg.maxFiles (s.archives ++ [content])
          live := none
          streamOk := false }

/-- `checkAndRotateFile` from the source: stat the **current** file
before the write; rotate when its size already reached `maxFileSize`. -/
def checkAndRotateFile (s : LoggerFS) : LoggerFS :=
  if s.cfg.logFile = "" then s
  else
    match s.live with
    | none => s
    | some content =>
      if s.cfg.maxFileSize ≤ (content.length : Int) then rotateLogFile s
      else s

/-- `LogBuffer.flush` acting on the logger state: skip when the queue is
empty; write the joined queue to the live file when the stream is alive;
clear the queue. -/
def LoggerFS.bufFlush (s : LoggerFS) (q : List String) : LoggerFS :=
  if q.isEmpty then s
  else if s.streamOk then
    { s with live := some ((s.live.getD "") ++ String.join q), buf := some [] }
  else { s with buf := some [] }

/-- `LogBuffer.add` acting on the logger state: push; flush when the
queue length reaches `bufferSize`. -/
def LoggerFS.bufAdd (s : LoggerFS) (q : List String) (content : String) : LoggerFS :=
  if s.cfg.bufferSize ≤ (((q ++ [content]).length : Nat) : Int) then
    s.bufFlush (q ++ [content])
  else { s with buf := some (q ++ [content]) }

/-- `writeToFile` from the source: return unless a log file is
configured; `checkAndRotateFile`; then hand the formatted line to the
buffer when one exists, else write it on the stream when alive, else
fall back to `fs.appendFileSync` — on the file's content the last two
paths both append the same bytes. -/
def writeToFile (s : LoggerFS) (content : String) : LoggerFS :=
  if s.cfg.logFile = "" then s
  else
    match (checkAndRotateFile s).buf with
    | some q => (checkAndRotateFile s).bufAdd q content
    | none =>
      { checkAndRotateFile s with
        live := some (((checkAndRotateFile s).live.getD "") ++ content) }

/-- `flush()` from the source, restricted to its file-content effect:
drain the buffer (the subsequent stream-drain wait moves no bytes). -/
def loggerFlush (s : LoggerFS) : LoggerFS :=
  match s.buf with
  | some q => s.bufFlush q
  | none => s

/-- `close()` from the source: `logBuffer.close()` (which flushes, then
ends the stream), null out `logBuffer`, then end/destroy the stream. -/
def loggerClose (s : LoggerFS) : LoggerFS :=
  match s.buf with
  | some q => { s.bufFlush q with buf := none, streamOk := false }
  | none => { s with streamOk := false }

/-- Every byte held anywhere by the logger: archives, live file, pending
queue. -/
def allBytes (s : LoggerFS) : String :=
  String.join s.archives ++ (s.live.getD "") ++ String.join (s.buf.getD [])

/-- An async logger (buffering on) whose buffer holds one pending line
`"A"` that has not yet been flushed, at the moment a rotation triggers. -/
def c2state : LoggerFS :=
  ⟨{ getDefaultConfig with logFile := "app.log", async := true },
   some "", [], some ["A"], true⟩

/-- Claim C2 (code bug): rotating with a non-empty pending buffer loses
the queued line.  Before the rotation the logger holds exactly the bytes
`"A"`; after `rotateLogFile` every byte is gone — the pending line is in
neither the archive nor the new live file nor the (freshly emptied)
queue, because `rotateLogFile` never flushes `logBuffer` and
`setupFileLogging` replaces it with a new empty buffer. -/
theorem C2_rotation_drops_pending_buffer :
    allBytes c2state = "A" ∧
    allBytes (rotateLogFile c2state) = "" ∧
    (rotateLogFile c2state).buf = some [] ∧
    (rotateLogFile c2state).archives = [""] ∧
    (rotateLogFile c2state).live = some "" := by
  refine ⟨rfl, ?_, ?_, ?_, ?_⟩ <;> decide

/-- A 40-byte log line. -/
def entry40 : String := "0123456789012345678901234567890123456789"

/-- A logger with `maxFileSize = 100`, no buffering, empty live file. -/
def c6state : LoggerFS :=
  ⟨{ getDefaultConfig with logFile := "app.log", maxFileSize := 100 },
   some "", [], none, true⟩

/-- Claim C6 as stated is false: with `maxFileSize = 100` and three
40-byte entries written sequentially without buffering, the **third**
write does not rotate — `checkAndRotateFile` stats the file *before*
appending and sees only 80 bytes (80 < 100) — so afterwards no archive
exists and the live file holds all three entries (120 bytes), not only
the third. -/
theorem C6_third_write_does_not_rotate :
    (writeToFile (writeToFile (writeToFile c6state entry40) entry40) entry40).archives
      = [] ∧
    (writeToFile (writeToFile (writeToFile c6state entry40) entry40) entry40).live
      = some (entry40 ++ entry40 ++ entry40) ∧
    ¬ (writeToFile (writeToFile (writeToFile c6state entry40) entry40) entry40).live
      = some entry40 := by
  refine ⟨?_, ?_, ?_⟩ <;> decide

theorem rotateLogFile_no_async (s : LoggerFS) (t : String)
    (hlog : ¬ s.cfg.logFile = "") (hdis : s.cfg.disableFileLogging = false)
    (hasync : s.cfg.async = false) (hlive : s.live = some t) :
    rotateLogFile s =
      { s with
        archives := keepMostRecent s.cfg.maxFiles (s.archives ++ [t])
        live := some ""
        streamOk := true } := by
  unfold rotateLogFile
  rw [if_neg hlog, hlive]
  simp [hlog, hdis, hasync]

theorem keepMostRecent_getLast (K : Int) (hK : 1 ≤ K) (xs : List String) (t : String) :
    (keepMostRecent K (xs ++ [t])).getLast? = some t := by
  unfold keepMostRecent
  split_ifs with h
  · rw [List.drop_append_eq_append_drop]
    have h0 : (xs ++ [t]).length - K.toNat - xs.length = 0 := by
      simp only [List.length_append, List.length_cons, List.length_nil]
      omega
    rw [h0]
    simp only [List.drop_zero]
    exact List.getLast?_concat _
  · exact List.getLast?_concat _

/-- Claim C6 amended: the third write leaves the live file at 120 bytes;
it is the **fourth** write that rotates first (120 ≥ 100), after which
the archive holds exactly the 120 pre-rotation bytes and the live file
holds only the fourth entry.  In general, once the live file's size has
reached `maxFileSize`, the next write rotates first: the newest archive
holds exactly the pre-rotation bytes, and the live file is empty before
the new line is appended, so it ends up holding only the new entry. -/
theorem C6_rotation_on_next_write :
    ((writeToFile (writeToFile (writeToFile (writeToFile c6state entry40)
        entry40) entry40) entry40).archives
      = [entry40 ++ entry40 ++ entry40] ∧
     (writeToFile (writeToFile (writeToFile (writeToFile c6state entry40)
        entry40) entry40) entry40).live = some entry40) ∧
    (∀ (s : LoggerFS) (t e : String),
      ¬ s.cfg.logFile = "" → s.cfg.disableFileLogging = false →
      s.cfg.async = false → s.buf = none → s.live = some t →
      s.cfg.maxFileSize ≤ (t.length : Int) →
      (writeToFile s e).live = some e ∧
      (writeToFile s e).archives
        = keepMostRecent s.cfg.maxFiles (s.archives ++ [t]) ∧
      (1 ≤ s.cfg.maxFiles → (writeToFile s e).archives.getLast? = some t)) := by
  constructor
  · exact ⟨by decide, by decide⟩
  · intro s t e hlog hdis hasync hbuf hlive hsize
    have hcr : checkAndRotateFile s = rotateLogFile s := by
      unfold checkAndRotateFile
      rw [if_neg hlog, hlive]
      simp [hsize]
    have hrot := rotateLogFile_no_async s t hlog hdis hasync hlive
    have hres : writeToFile s e =
        { s with
          archives := keepMostRecent s.cfg.maxFiles (s.archives ++ [t])
          live := some e
          streamOk := true } := by
      unfold writeToFile
      rw [if_neg hlog, hcr, hrot, hbuf]
      rfl
    rw [hres]
    exact ⟨rfl, rfl, fun hK => keepMostRecent_getLast _ hK _ _⟩

theorem LogBuffer.flush_destroyed (b : LogBuffer) (h : b.streamDestroyed = true) :
    b.flush.written = b.written ∧ b.flush.streamDestroyed = true := by
  unfold LogBuffer.flush
  by_cases he : b.buffer.isEmpty <;> simp [he, h]

theorem LogBuffer.step_destroyed (b : LogBuffer) (op : BufOp)
    (h : b.streamDestroyed = true) :
    (b.step op).written = b.written ∧ (b.step op).streamDestroyed = true := by
  cases op with
  | timerFlush => simpa [LogBuffer.step] using b.flush_destroyed h
  | add e =>
    unfold LogBuffer.step LogBuffer.add
    dsimp only
    by_cases hth : b.maxSize ≤ (((b.buffer ++ [e]).length : Nat) : Int)
    · rw [if_pos hth]
      exact LogBuffer.flush_destroyed { b with buffer := b.buffer ++ [e] }
        (by simpa using h)
    · rw [if_neg hth]
      by_cases ht : b.timerArmed
      · rw [if_neg (by simpa using ht)]
        exact ⟨rfl, h⟩
      · rw [if_pos (by simpa using ht)]
        exact ⟨rfl, h⟩

theorem LogBuffer.run_destroyed (b : LogBuffer) (ops : List BufOp)
    (h : b.streamDestroyed = true) :
    (b.run ops).written = b.written := by
  induction ops generalizing b with
  | nil => rfl
  | cons op rest ih =>
    obtain ⟨hw, hd⟩ := b.step_destroyed op h
    rw [show b.run (op :: rest) = (b.step op).run rest from rfl, ih _ hd, hw]

theorem checkAndRotateFile_buf (s : LoggerFS) (ha : s.cfg.async = false) :
    (checkAndRotateFile s).buf = s.buf := by
  unfold checkAndRotateFile rotateLogFile
  by_cases hl : s.cfg.logFile = ""
  · simp [hl]
  · cases hlive : s.live with
    | none => simp [hl, hlive]
    | some t =>
      by_cases hs : s.cfg.maxFileSize ≤ (t.length : Int) <;>
        by_cases hd : s.cfg.disableFileLogging <;>
          simp [hl, hlive, hs, ha, hd]

/-- A logger that has been closed: `close()` flushed and discarded the
buffer (`logBuffer = null`) and ended/destroyed the stream; the config
still names the log file. -/
def c7state : LoggerFS :=
  loggerClose ⟨{ getDefaultConfig with logFile := "app.log" }, some "A", [], none, true⟩

/-- Claim C7 as stated is false: a log call issued after `close()` is
**not** silently dropped.  With `logBuffer` null and the stream
destroyed, `writeToFile` falls through to its `fs.appendFileSync`
fallback and appends the line: the closed logger's file grows from
`"A"` to `"AX"`. -/
theorem C7_post_close_write_not_dropped :
    (writeToFile c7state "X").live = some "AX" ∧
    ¬ (writeToFile c7state "X").live = c7state.live := by
  refine ⟨?_, ?_⟩ <;> decide

/-- Claim C7 amended: after `close()` the buffer is gone (`logBuffer = null`)
and the stream is unusable, and a buffer whose stream is destroyed never
writes another byte (so `add()` on a closed buffer is ignored, as the
claim says); but a log call on the closed logger is **not** dropped — with
no buffer, `writeToFile` appends the formatted line to the live file
(stream write or the `fs.appendFileSync` fallback), raising no error. -/
theorem C7_post_close_writes_fall_back :
    (∀ (s : LoggerFS) (content : String),
      ¬ s.cfg.logFile = "" → s.buf = none → s.cfg.async = false →
      (writeToFile s content).live
        = some (((checkAndRotateFile s).live.getD "") ++ content)) ∧
    (∀ s : LoggerFS, (loggerClose s).buf = none ∧ (loggerClose s).streamOk = false) ∧
    (∀ (b : LogBuffer) (ops : List BufOp), b.streamDestroyed = true →
      (b.run ops).written = b.written) := by
  refine ⟨?_, ?_, ?_⟩
  · intro s content hlog hbuf ha
    have h1 : (checkAndRotateFile s).buf = none := by
      rw [checkAndRotateFile_buf s ha, hbuf]
    unfold writeToFile
    rw [if_neg hlog, h1]
  · intro s
    cases hb : s.buf <;> simp [loggerClose, hb]
  · exact fun b ops h => b.run_destroyed ops h

/-- Witness for C7 at the concrete closed logger: the post-close write
lands in the file, and a destroyed-stream buffer flush writes nothing. -/
theorem C7_post_close_writes_fall_back_witness :
    (writeToFile c7state "X").live
      = some (((checkAndRotateFile c7state).live.getD "") ++ "X") ∧
    ((⟨["B"], 100, false, true, []⟩ : LogBuffer).run [.timerFlush]).written
      = ([] : List String) :=
  ⟨C7_post_close_writes_fall_back.1 c7state "X" (by decide) (by decide) (by decide),
   C7_post_close_writes_fall_back.2.2 ⟨["B"], 100, false, true, []⟩ [.timerFlush] rfl⟩

/-- Witness for C6: the state after the third write (120-byte live file)
satisfies every hypothesis of the general part, and the fourth write
rotates, leaving only the fourth entry in the live file. -/
theorem C6_rotation_on_next_write_witness :
    (writeToFile (writeToFile (writeToFile (writeToFile c6state entry40)
        entry40) entry40) entry40).live = some entry40 :=
  (C6_rotation_on_next_write.2
    (writeToFile (writeToFile (writeToFile c6state entry40) entry40) entry40)
    (entry40 ++ entry40 ++ entry40) entry40
    (by decide) (by decide) (by decide) (by decide) (by decide) (by decide)).1

/-! ## Bounded-timeout close (C4)

`LogBuffer.close` (1000 ms) and `LoggerImpl.close` (2000 ms) both race
the stream's `end()` completion callback against a `setTimeout` whose
callback forcibly destroys the stream and resolves the promise;
whichever fires first resolves, and `clearTimeout` cancels the loser.
Discrete-time model of the event loop: a timer armed with delay `d`
fires at instant `d`; `endCompletesAt` is the instant at which the
stream's completion callback fires (`none` = the stream never signals
completion); when the stream is already destroyed the method resolves
immediately.  The preceding `flush()` is synchronous (instant 0). -/

def streamCloseResolveTime (timeoutMs : Nat) (alreadyDestroyed : Bool)
    (endCompletesAt : Option Nat) : Nat :=
  if alreadyDestroyed then 0
  else
    match endCompletesAt with
    | some t => min t timeoutMs
    | none => timeoutMs

/-- Whether the timeout path ran, forcibly destroying the stream. -/
def streamForceDestroyed (timeoutMs : Nat) (alreadyDestroyed : Bool)
    (endCompletesAt : Option Nat) : Bool :=
  if alreadyDestroyed then false
  else
    match endCompletesAt with
    | some t => decide (timeoutMs ≤ t)
    | none => true

/-- `LoggerImpl.close`: awaiting `logBuffer.close()` (bounded by its
1000 ms race) when a buffer exists, then the logger's own stream race
bounded by 2000 ms. -/
def loggerCloseResolveTime (hasBuffer : Bool) (sd1 sd2 : Bool)
    (endA endB : Option Nat) : Nat :=
  (if hasBuffer then streamCloseResolveTime 1000 sd1 endA else 0) +
  streamCloseResolveTime 2000 sd2 endB

/-- Claim C4: for every stream behavior — including one that never
signals completion of `end()` — `close()` resolves within its
documented bounded timeout: the buffer's stream close within 1 second,
the logger's stream close within 2 seconds (hence the whole `close()`
within 3 seconds), and when the stream never completes, the timeout
path forcibly destroys it; `close()` never hangs. -/
theorem C4_close_bounded_timeout :
    (∀ (sd : Bool) (endC : Option Nat),
      streamCloseResolveTime 1000 sd endC ≤ 1000) ∧
    (∀ (sd : Bool) (endC : Option Nat),
      streamCloseResolveTime 2000 sd endC ≤ 2000) ∧
    (∀ (hb sd1 sd2 : Bool) (endA endB : Option Nat),
      loggerCloseResolveTime hb sd1 sd2 endA endB ≤ 3000) ∧
    (∀ (sd : Bool) (endC : Option Nat), sd = false → endC = none →
      streamForceDestroyed 1000 sd endC = true ∧
      streamForceDestroyed 2000 sd endC = true) := by
  have hb : ∀ (tm : Nat) (sd : Bool) (endC : Option Nat),
      streamCloseResolveTime tm sd endC ≤ tm := by
    intro tm sd endC
    unfold streamCloseResolveTime
    cases sd <;> cases endC <;> simp
  refine ⟨fun sd endC => hb 1000 sd endC, fun sd endC => hb 2000 sd endC, ?_, ?_⟩
  · intro hbuf sd1 sd2 endA endB
    unfold loggerCloseResolveTime
    have h1 := hb 1000 sd1 endA
    have h2 := hb 2000 sd2 endB
    cases hbuf <;> simp <;> omega
  · intro sd endC hsd hend
    subst hsd hend
    exact ⟨rfl, rfl⟩

/-- Witness for C4 at a concrete behavior: a live stream that never
signals completion. -/
theorem C4_close_bounded_timeout_witness :
    streamCloseResolveTime 1000 false none ≤ 1000 ∧
    loggerCloseResolveTime true false false none none ≤ 3000 ∧
    streamForceDestroyed 1000 false none = true :=
  ⟨C4_close_bounded_timeout.1 false none,
   C4_close_bounded_timeout.2.2.1 true false false none none,
   (C4_close_bounded_timeout.2.2.2 false none rfl rfl).1⟩

/-! ## Archive retention (`cleanupOldLogFiles`, C3)

Directory-level model of the cleanup run after each rotation.  A
directory entry has a name and a modification time (epoch ms); names in
one directory are unique.  The code lists the directory, filters to
names that start with the base name, end with the extension and are not
the live file `base + ext`, sorts the matches by modification time
descending, and when more than `maxFiles` matches exist deletes (by
path) every match beyond the first `maxFiles` of that order. -/

structure DirFile where
  name : String
  mtime : Nat
deriving DecidableEq, Repr

/-- Comparator of the source's `.sort((a, b) => b.mtime - a.mtime)`:
most recently modified first. -/
def mtimeGe (a b : DirFile) : Prop := b.mtime ≤ a.mtime

instance : DecidableRel mtimeGe := fun a b => Nat.decLe b.mtime a.mtime

instance : IsTotal DirFile mtimeGe := ⟨fun a b => Nat.le_total b.mtime a.mtime⟩

instance : IsTrans DirFile mtimeGe :=
  ⟨fun _ _ _ hab hbc => Nat.le_trans hbc hab⟩

/-- JS `String.prototype.startsWith`, computed on the character list. -/
def strStartsWith (s p : String) : Bool := p.data.isPrefixOf s.data

/-- JS `String.prototype.endsWith`, computed on the character list. -/
def strEndsWith (s p : String) : Bool := p.data.isSuffixOf s.data

/-- The filter of `cleanupOldLogFiles`: base-name prefix, extension
suffix, not the live file itself. -/
def matchesFilter (base ext : String) (f : DirFile) : Bool :=
  strStartsWith f.name base && strEndsWith f.name ext && f.name != base ++ ext

/-- The files `cleanupOldLogFiles` deletes: when more than `maxFiles`
matches exist, every match beyond the first `maxFiles` in
most-recently-modified-first order. -/
def filesToDelete (dir : List DirFile) (base ext : String) (maxFiles : Int) :
    List DirFile :=
  if maxFiles < ((dir.filter (matchesFilter base ext)).length : Int) then
    (List.insertionSort mtimeGe (dir.filter (matchesFilter base ext))).drop
      maxFiles.toNat
  else []

/-- The directory after `cleanupOldLogFiles`: every file whose path was
not unlinked (deletion is by path, i.e. by name). -/
def cleanupOldLogFiles (dir : List DirFile) (base ext : String) (maxFiles : Int) :
    List DirFile :=
  dir.filter (fun f => (filesToDelete dir base ext maxFiles).all
    (fun g => g.name != f.name))

theorem filesToDelete_subset (dir : List DirFile) (base ext : String) (K : Int) :
    filesToDelete dir base ext K ⊆ dir.filter (matchesFilter base ext) := by
  unfold filesToDelete
  split
  · exact fun x hx =>
      (List.perm_insertionSort mtimeGe _).subset (List.drop_subset _ _ hx)
  · intro x hx
    simp at hx

theorem cleanup_mem_iff (dir : List DirFile) (base ext : String) (K : Int)
    (hnd : (dir.map DirFile.name).Nodup) (f : DirFile) :
    f ∈ cleanupOldLogFiles dir base ext K ↔
      f ∈ dir ∧ f ∉ filesToDelete dir base ext K := by
  unfold cleanupOldLogFiles
  rw [List.mem_filter]
  refine ⟨fun h => ⟨h.1, ?_⟩, fun h => ⟨h.1, ?_⟩⟩
  · intro hfin
    rw [List.all_eq_true] at h
    have := h.2 f hfin
    simp at this
  · rw [List.all_eq_true]
    intro g hg
    have hgdir : g ∈ dir :=
      (List.mem_filter.mp (filesToDelete_subset dir base ext K hg)).1
    by_contra hne
    simp only [bne_iff_ne, ne_eq, not_not] at hne
    have hge : g = f := List.inj_on_of_nodup_map hnd hgdir h.1 hne
    exact h.2 (hge ▸ hg)

/-- Claim C3: after cleanup with retention `K > 0` on a directory with
unique names, (a) every file not matching the base/extension filter —
in particular the live file — is untouched; (b) a matching file remains
iff it is among the first `K` of the matches sorted by modification
time descending, i.e. exactly the (at most) `K` most recently modified
archives remain; (c) the archive count never exceeds `K`; (d) when at
least `K` matches existed, exactly `K` remain; and (e) the order used
is genuinely modification-time-descending. -/
theorem C3_cleanup_retention (dir : List DirFile) (base ext : String) (K : Int)
    (hnd : (dir.map DirFile.name).Nodup) (hK : 0 < K) :
    (∀ f ∈ dir, matchesFilter base ext f = false →
      f ∈ cleanupOldLogFiles dir base ext K) ∧
    (∀ f, (f ∈ cleanupOldLogFiles dir base ext K ∧ matchesFilter base ext f = true)
      ↔ f ∈ (List.insertionSort mtimeGe
          (dir.filter (matchesFilter base ext))).take K.toNat) ∧
    (((cleanupOldLogFiles dir base ext K).filter (matchesFilter base ext)).length
      ≤ K.toNat) ∧
    (K ≤ ((dir.filter (matchesFilter base ext)).length : Int) →
      ((((cleanupOldLogFiles dir base ext K).filter
          (matchesFilter base ext)).length : Int) = K)) ∧
    List.Sorted mtimeGe
      (List.insertionSort mtimeGe (dir.filter (matchesFilter base ext))) := by
  have hdirnd : dir.Nodup := hnd.of_map
  have hfilesnd : (dir.filter (matchesFilter base ext)).Nodup := hdirnd.filter _
  have hperm : List.Perm
      (List.insertionSort mtimeGe (dir.filter (matchesFilter base ext)))
      (dir.filter (matchesFilter base ext)) := List.perm_insertionSort _ _
  have hsortnd : (List.insertionSort mtimeGe
      (dir.filter (matchesFilter base ext))).Nodup :=
    hperm.nodup_iff.mpr hfilesnd
  -- (b), proved first since the rest follow from it
  have hmemiff : ∀ f,
      (f ∈ cleanupOldLogFiles dir base ext K ∧ matchesFilter base ext f = true)
        ↔ f ∈ (List.insertionSort mtimeGe
            (dir.filter (matchesFilter base ext))).take K.toNat := by
    intro f
    constructor
    · rintro ⟨hclean, hm⟩
      obtain ⟨hfdir, hfnotdel⟩ := (cleanup_mem_iff dir base ext K hnd f).mp hclean
      have hffiles : f ∈ dir.filter (matchesFilter base ext) :=
        List.mem_filter.mpr ⟨hfdir, hm⟩
      have hfsorted : f ∈ List.insertionSort mtimeGe
          (dir.filter (matchesFilter base ext)) := hperm.mem_iff.mpr hffiles
      unfold filesToDelete at hfnotdel
      by_cases hbig : K < ((dir.filter (matchesFilter base ext)).length : Int)
      · rw [if_pos hbig] at hfnotdel
        rw [← List.take_append_drop K.toNat (List.insertionSort mtimeGe
          (dir.filter (matchesFilter base ext)))] at hfsorted
        rcases List.mem_append.mp hfsorted with h | h
        · exact h
        · exact absurd h hfnotdel
      · have hlen : (List.insertionSort mtimeGe
            (dir.filter (matchesFilter base ext))).length ≤ K.toNat := by
          rw [hperm.length_eq]
          omega
        rw [List.take_of_length_le hlen]
        exact hfsorted
    · intro htake
      have hfsorted : f ∈ List.insertionSort mtimeGe
          (dir.filter (matchesFilter base ext)) :=
        List.take_subset _ _ htake
      have hffiles : f ∈ dir.filter (matchesFilter base ext) :=
        hperm.subset hfsorted
      have hm : matchesFilter base ext f = true := (List.mem_filter.mp hffiles).2
      refine ⟨(cleanup_mem_iff dir base ext K hnd f).mpr
        ⟨(List.mem_filter.mp hffiles).1, ?_⟩, hm⟩
      unfold filesToDelete
      by_cases hbig : K < ((dir.filter (matchesFilter base ext)).length : Int)
      · rw [if_pos hbig]
        intro hdrop
        have hnd2 := hsortnd
        rw [← List.take_append_drop K.toNat (List.insertionSort mtimeGe
          (dir.filter (matchesFilter base ext)))] at hnd2
        exact (List.nodup_append.mp hnd2).2.2 htake hdrop
      · rw [if_neg hbig]
        simp
  -- (a)
  refine ⟨?_, hmemiff, ?_, ?_, List.sorted_insertionSort mtimeGe _⟩
  · intro f hf hm
    refine (cleanup_mem_iff dir base ext K hnd f).mpr ⟨hf, ?_⟩
    intro hdel
    have := (List.mem_filter.mp (filesToDelete_subset dir base ext K hdel)).2
    rw [hm] at this
    cases this
  -- (c)
  · have hsub : (cleanupOldLogFiles dir base ext K).filter (matchesFilter base ext)
        ⊆ (List.insertionSort mtimeGe
            (dir.filter (matchesFilter base ext))).take K.toNat := by
      intro x hx
      obtain ⟨hx1, hx2⟩ := List.mem_filter.mp hx
      exact (hmemiff x).mp ⟨hx1, hx2⟩
    have hcleannd : ((cleanupOldLogFiles dir base ext K).filter
        (matchesFilter base ext)).Nodup := (hdirnd.filter _).filter _
    have hle := (List.subperm_of_subset hcleannd hsub).length_le
    refine le_trans hle ?_
    rw [List.length_take]
    omega
  -- (d)
  · intro hKlen
    have hcleannd : ((cleanupOldLogFiles dir base ext K).filter
        (matchesFilter base ext)).Nodup := (hdirnd.filter _).filter _
    have htakend : ((List.insertionSort mtimeGe
        (dir.filter (matchesFilter base ext))).take K.toNat).Nodup :=
      (List.take_sublist _ _).nodup hsortnd
    have hpermclean : List.Perm
        ((cleanupOldLogFiles dir base ext K).filter (matchesFilter base ext))
        ((List.insertionSort mtimeGe
          (dir.filter (matchesFilter base ext))).take K.toNat) := by
      rw [List.perm_ext_iff_of_nodup hcleannd htakend]
      intro x
      rw [List.mem_filter]
      exact hmemiff x
    have hlen := hpermclean.length_eq
    rw [hlen, List.length_take, hperm.length_eq]
    omega

/-- Witness for C3 at a concrete directory: live file `app.log`, three
archives with distinct modification times, retention `K = 2`; the two
most recent archives and the live file remain. -/
theorem C3_cleanup_retention_witness :
    ⟨"app.log", 50⟩ ∈ cleanupOldLogFiles
      [⟨"app.log", 50⟩, ⟨"app.a.log", 10⟩, ⟨"app.b.log", 20⟩, ⟨"app.c.log", 30⟩]
      "app" ".log" 2 ∧
    (⟨"app.b.log", 20⟩ ∈ cleanupOldLogFiles
      [⟨"app.log", 50⟩, ⟨"app.a.log", 10⟩, ⟨"app.b.log", 20⟩, ⟨"app.c.log", 30⟩]
      "app" ".log" 2 ∧ matchesFilter "app" ".log" ⟨"app.b.log", 20⟩ = true) ∧
    ((cleanupOldLogFiles
      [⟨"app.log", 50⟩, ⟨"app.a.log", 10⟩, ⟨"app.b.log", 20⟩, ⟨"app.c.log", 30⟩]
      "app" ".log" 2).filter (matchesFilter "app" ".log")).length ≤ (2 : Int).toNat := by
  have h := C3_cleanup_retention
    [⟨"app.log", 50⟩, ⟨"app.a.log", 10⟩, ⟨"app.b.log", 20⟩, ⟨"app.c.log", 30⟩]
    "app" ".log" 2 (by decide) (by decide)
  refine ⟨h.1 ⟨"app.log", 50⟩ (by decide) (by decide), ?_, h.2.2.1⟩
  exact (h.2.1 ⟨"app.b.log", 20⟩).mpr (by decide)

/-! ## Circular-safe metadata serialization (`safeStringify`, C9)

Model of the JavaScript values `safeStringify` serializes.  Primitives
cover the kinds the function distinguishes: `null` and `undefined` and
strings/numbers/booleans (handled by the pre-checks and serialized in
place), plus BigInt — the value kind on which `JSON.stringify` throws a
`TypeError` (the "other serialization failure" of the claim).  Objects
live in a heap: object `i` is the field list `objs.get? i`; cycles and
shared references arise when a field's value refers back to an id.

`serVal` models `JSON.stringify(obj, replacer)` with the source's
replacer: it keeps a `seen` set shared across the whole traversal
(a `WeakSet` that only grows); a reference already in `seen` is
replaced by the string `"[Circular]"` instead of being entered; an
unseen reference is added and its fields serialized in order,
threading `seen`.  A property whose value is `undefined` is omitted
(`JSON.stringify` semantics), which the `Option` result encodes.  JSON
string quoting is modelled without escape sequences and the
`prettyPrint` indentation (whitespace only) is not modelled.  The
`fuel` argument bounds recursion depth; since every descent inserts a
fresh object id into `seen`, depth never exceeds the heap size, and
`jsonStringify` supplies fuel `objs.length + 1`, proved sufficient in
`serOk`. -/

inductive JsPrim
  | jsNull
  | undef
  | str (s : String)
  | num (n : Int)
  | boolean (b : Bool)
  | bigint (n : Int)
deriving DecidableEq, Repr

inductive JsVal
  | prim (p : JsPrim)
  | ref (i : Nat)
deriving DecidableEq, Repr

structure JsHeap where
  objs : List (List (String × JsVal))
deriving DecidableEq, Repr

/-- JSON string quoting (escape sequences not modelled). -/
def quoteStr (s : String) : String := "\"" ++ s ++ "\""

def primNoBigint : JsPrim → Bool
  | .bigint _ => false
  | _ => true

def valNoBigint : JsVal → Bool
  | .prim p => primNoBigint p
  | .ref _ => true

def heapNoBigint (h : JsHeap) : Bool :=
  h.objs.all (fun fields => fields.all (fun kv => valNoBigint kv.2))

/-- `JSON.stringify`'s recursive serialization with the circular-guard
replacer; see the section comment. -/
def serVal (h : JsHeap) (fuel : Nat) (seen : List Nat) :
    JsVal → Except String (Option String × List Nat)
  | .prim .jsNull => .ok (some "null", seen)
  | .prim .undef => .ok (none, seen)
  | .prim (.str s) => .ok (some (quoteStr s), seen)
  | .prim (.num n) => .ok (some (toString n), seen)
  | .prim (.boolean b) => .ok (some (if b then "true" else "false"), seen)
  | .prim (.bigint _) => .error "Do not know how to serialize a BigInt"
  | .ref i =>
    if i ∈ seen then .ok (some (quoteStr "[Circular]"), seen)
    else
      match fuel with
      | 0 => .error "[depth exhausted]"
      | fuel' + 1 =>
        match h.objs[i]? with
        | none => .ok (some "null", seen)
        | some fields => do
          let r ← fields.foldlM (fun (acc : List String × List Nat) kv => do
              let (sv, seen2) ← serVal h fuel' acc.2 kv.2
              match sv with
              | none => pure (acc.1, seen2)
              | some s => pure (acc.1 ++ [quoteStr kv.1 ++ ":" ++ s], seen2))
            ([], i :: seen)
          .ok (some ("\x7b" ++ String.intercalate "," r.1 ++ "\x7d"), r.2)

/-- The field loop of `serVal`, named for the proofs. -/
def serFields (h : JsHeap) (fuel : Nat) (acc : List String × List Nat)
    (fields : List (String × JsVal)) : Except String (List String × List Nat) :=
  fields.foldlM (fun (acc : List String × List Nat) kv => do
      let (sv, seen2) ← serVal h fuel acc.2 kv.2
      match sv with
      | none => pure (acc.1, seen2)
      | some s => pure (acc.1 ++ [quoteStr kv.1 ++ ":" ++ s], seen2))
    acc

/-- A list of distinct naturals all below `N` has length at most `N`. -/
theorem nodup_bounded_length (l : List Nat) (N : Nat) (hnd : l.Nodup)
    (hb : ∀ j ∈ l, j < N) : l.length ≤ N := by
  classical
  have hsub : l.toFinset ⊆ Finset.range N := fun x hx =>
    Finset.mem_range.mpr (hb x (List.mem_toFinset.mp hx))
  have hcard := Finset.card_le_card hsub
  rw [List.toFinset_card_of_nodup hnd] at hcard
  simpa using hcard

theorem serFields_ok (h : JsHeap) (fuel' : Nat)
    (ih : ∀ (seen : List Nat) (v : JsVal), seen.Nodup →
      (∀ j ∈ seen, j < h.objs.length) →
      h.objs.length + 1 ≤ fuel' + seen.length → valNoBigint v = true →
      ∃ out seen2, serVal h fuel' seen v = .ok (out, seen2) ∧
        seen ⊆ seen2 ∧ seen2.Nodup ∧ ∀ j ∈ seen2, j < h.objs.length) :
    ∀ (fields : List (String × JsVal)) (parts0 : List String) (seen0 : List Nat),
      seen0.Nodup → (∀ j ∈ seen0, j < h.objs.length) →
      h.objs.length + 1 ≤ fuel' + seen0.length →
      fields.all (fun kv => valNoBigint kv.2) = true →
      ∃ parts seen2, serFields h fuel' (parts0, seen0) fields = .ok (parts, seen2) ∧
        seen0 ⊆ seen2 ∧ seen2.Nodup ∧ ∀ j ∈ seen2, j < h.objs.length := by
  intro fields
  induction fields with
  | nil =>
    intro parts0 seen0 h1 h2 _ _
    exact ⟨parts0, seen0, rfl, fun x hx => hx, h1, h2⟩
  | cons kv rest ihf =>
    intro parts0 seen0 h1 h2 h3 hall
    rw [List.all_cons, Bool.and_eq_true] at hall
    obtain ⟨hv, hrest⟩ := hall
    obtain ⟨sv, seen1, heq, hsub1, hnd1, hb1⟩ := ih seen0 kv.2 h1 h2 h3 hv
    have hlen1 : seen0.length ≤ seen1.length :=
      (List.subperm_of_subset h1 hsub1).length_le
    have h3a : h.objs.length + 1 ≤ fuel' + seen1.length := by omega
    cases sv with
    | none =>
      obtain ⟨parts, seen2, heq2, hsub2, hnd2, hb2⟩ :=
        ihf parts0 seen1 hnd1 hb1 h3a hrest
      refine ⟨parts, seen2, ?_, fun x hx => hsub2 (hsub1 hx), hnd2, hb2⟩
      have heq2a : serFields h fuel' (parts0, seen1) rest = .ok (parts, seen2) := heq2
      simp [serFields, List.foldlM_cons, heq] at heq2a ⊢
      simpa [serFields] using heq2a
    | some s =>
      obtain ⟨parts, seen2, heq2, hsub2, hnd2, hb2⟩ :=
        ihf (parts0 ++ [quoteStr kv.1 ++ ":" ++ s]) seen1 hnd1 hb1 h3a hrest
      refine ⟨parts, seen2, ?_, fun x hx => hsub2 (hsub1 hx), hnd2, hb2⟩
      have heq2a : serFields h fuel' (parts0 ++ [quoteStr kv.1 ++ ":" ++ s], seen1)
          rest = .ok (parts, seen2) := heq2
      simp [serFields, List.foldlM_cons, heq] at heq2a ⊢
      simpa [serFields] using heq2a

theorem serOk (h : JsHeap) (hnb : heapNoBigint h = true) :
    ∀ (fuel : Nat) (seen : List Nat) (v : JsVal), seen.Nodup →
      (∀ j ∈ seen, j < h.objs.length) →
      h.objs.length + 1 ≤ fuel + seen.length →
      valNoBigint v = true →
      ∃ out seen2, serVal h fuel seen v = .ok (out, seen2) ∧
        seen ⊆ seen2 ∧ seen2.Nodup ∧ ∀ j ∈ seen2, j < h.objs.length := by
  intro fuel
  induction fuel using Nat.strong_induction_on with
  | _ fuel ih =>
    intro seen v hnd hb hsum hv
    cases v with
    | prim p =>
      cases p with
      | jsNull => exact ⟨some "null", seen, by simp [serVal], fun x hx => hx, hnd, hb⟩
      | undef => exact ⟨none, seen, by simp [serVal], fun x hx => hx, hnd, hb⟩
      | str s => exact ⟨some (quoteStr s), seen, by simp [serVal], fun x hx => hx, hnd, hb⟩
      | num n => exact ⟨some (toString n), seen, by simp [serVal], fun x hx => hx, hnd, hb⟩
      | boolean b =>
        exact ⟨some (if b then "true" else "false"), seen, by simp [serVal],
          fun x hx => hx, hnd, hb⟩
      | bigint n => simp [valNoBigint, primNoBigint] at hv
    | ref i =>
      by_cases hi : i ∈ seen
      · exact ⟨some (quoteStr "[Circular]"), seen, by cases fuel <;> simp [serVal, hi],
          fun x hx => hx, hnd, hb⟩
      · have hlen : seen.length ≤ h.objs.length :=
          nodup_bounded_length seen _ hnd hb
        match fuel, hsum with
        | 0, hsum => exact absurd hsum (by omega)
        | fuel' + 1, hsum =>
          cases hget : h.objs[i]? with
          | none =>
            exact ⟨some "null", seen, by simp [serVal, hi, hget],
              fun x hx => hx, hnd, hb⟩
          | some fields =>
            have hiN : i < h.objs.length := by
              by_contra hcon
              rw [List.getElem?_eq_none (by omega)] at hget
              cases hget
            have hnd1 : (i :: seen).Nodup := List.nodup_cons.mpr ⟨hi, hnd⟩
            have hb1 : ∀ j ∈ i :: seen, j < h.objs.length := by
              intro j hj
              rcases List.mem_cons.mp hj with hj | hj
              · exact hj ▸ hiN
              · exact hb j hj
            have hsum1 : h.objs.length + 1 ≤ fuel' + (i :: seen).length := by
              simp only [List.length_cons]
              omega
            have hfieldsnb : fields.all (fun kv => valNoBigint kv.2) = true := by
              have hmem : fields ∈ h.objs := by
                have := List.getElem?_eq_some.mp hget
                obtain ⟨hlt, hgetv⟩ := this
                exact hgetv ▸ List.getElem_mem hlt
              unfold heapNoBigint at hnb
              rw [List.all_eq_true] at hnb
              exact hnb fields hmem
            obtain ⟨parts, seen2, heq, hsub, hnd2, hb2⟩ :=
              serFields_ok h fuel'
                (fun s v a b c d => ih fuel' (by omega) s v a b c d)
                fields [] (i :: seen) hnd1 hb1 hsum1 hfieldsnb
            refine ⟨some ("\x7b" ++ String.intercalate "," parts ++ "\x7d"), seen2,
              ?_, fun x hx => hsub (List.mem_cons_of_mem i hx), hnd2, hb2⟩
            have heqa : (fields.foldlM (fun (acc : List String × List Nat) kv => do
                let (sv, seen2) ← serVal h fuel' acc.2 kv.2
                match sv with
                | none => pure (acc.1, seen2)
                | some s => pure (acc.1 ++ [quoteStr kv.1 ++ ":" ++ s], seen2))
              ([], i :: seen)) = .ok (parts, seen2) := heq
            simp [serVal, hi, hget, heqa]
            rfl

/-- `JSON.stringify(obj, replacer, ...)` at the top level, with fuel
sufficient for the whole heap. -/
def jsonStringify (h : JsHeap) (v : JsVal) : Except String String :=
  match serVal h (h.objs.length + 1) [] v with
  | .error e => .error e
  | .ok (some s, _) => .ok s
  | .ok (none, _) => .ok "undefined"

/-- `safeStringify` from the source: pre-checks for null, undefined,
strings (returned as-is), numbers and booleans; otherwise
`JSON.stringify` with the circular-guard replacer inside a try/catch
whose handler substitutes the serialization-error placeholder. -/
def safeStringify (h : JsHeap) (v : JsVal) : String :=
  match v with
  | .prim .jsNull => "null"
  | .prim .undef => "undefined"
  | .prim (.str s) => s
  | .prim (.num n) => toString n
  | .prim (.boolean b) => if b then "true" else "false"
  | v =>
    match jsonStringify h v with
    | .ok s => s
    | .error e => "[Serialization Error: " ++ e ++ "]"

/-- Claim C9: serialization never raises out of the logging call — every
inner `JSON.stringify` exception is caught and replaced by the
`[Serialization Error: …]` placeholder string; on every heap and value
free of BigInts (the throwing kind) the inner serialization itself
succeeds even in the presence of circular references, because the
replacer substitutes the `"[Circular]"` sentinel instead of recursing
forever; concretely, a self-referential object serializes to a string
containing the sentinel, and a BigInt yields the placeholder, with
logging continuing normally in both cases. -/
theorem C9_serialization_never_raises :
    (∀ (h : JsHeap) (v : JsVal) (e : String), jsonStringify h v = .error e →
      safeStringify h v = "[Serialization Error: " ++ e ++ "]") ∧
    (∀ (h : JsHeap) (v : JsVal), heapNoBigint h = true → valNoBigint v = true →
      ∃ s, jsonStringify h v = .ok s) ∧
    (safeStringify ⟨[[("self", .ref 0)]]⟩ (.ref 0)
      = "\x7b\"self\":\"[Circular]\"\x7d") ∧
    (safeStringify ⟨[]⟩ (.prim (.bigint 1))
      = "[Serialization Error: Do not know how to serialize a BigInt]") := by
  refine ⟨?_, ?_, rfl, rfl⟩
  · intro h v e herr
    match v with
    | .prim .jsNull => simp [jsonStringify, serVal] at herr
    | .prim .undef => simp [jsonStringify, serVal] at herr
    | .prim (.str s) => simp [jsonStringify, serVal] at herr
    | .prim (.num n) => simp [jsonStringify, serVal] at herr
    | .prim (.boolean b) => simp [jsonStringify, serVal] at herr
    | .prim (.bigint n) => simp [safeStringify, herr]
    | .ref i => simp [safeStringify, herr]
  · intro h v hnb hv
    obtain ⟨out, seen2, heq, -, -, -⟩ :=
      serOk h hnb (h.objs.length + 1) [] v List.nodup_nil (by simp) (by simp) hv
    unfold jsonStringify
    rw [heq]
    cases out with
    | none => exact ⟨"undefined", rfl⟩
    | some s => exact ⟨s, rfl⟩

/-- Witness for C9 at concrete inputs: the BigInt error is caught into
the placeholder, and a circular one-object heap serializes without
error. -/
theorem C9_serialization_never_raises_witness :
    safeStringify ⟨[]⟩ (.prim (.bigint 1))
      = "[Serialization Error: Do not know how to serialize a BigInt]" ∧
    ∃ s, jsonStringify ⟨[[("self", .ref 0)]]⟩ (.ref 0) = .ok s :=
  ⟨C9_serialization_never_raises.1 ⟨[]⟩ (.prim (.bigint 1))
      "Do not know how to serialize a BigInt" rfl,
   C9_serialization_never_raises.2.1 ⟨[[("self", .ref 0)]]⟩ (.ref 0) rfl rfl⟩

end PrettyLogs
